import Mathlib

/-!
# Verification of the rs-query-engine core

A shallow embedding of the core of a small columnar SQL-style query engine
(logical plans, a planner, and physical operators), together with theorems
settling a list of claims about it.

Conventions of the embedding:
* Rust `Result<T, Error>` becomes `Except Error T`.
* A Rust panic (`unwrap` on a failed downcast, `todo!()`, `unimplemented!()`,
  out-of-range `Vec` indexing) is modelled by a distinguished `panic`
  error constructor, or by `Option` with `none` for panicking paths.
* Machine integers `i64`/`u64` are modelled as `Int`/`Nat`; none of the
  verified claims exercises wrap-around arithmetic.
* `f64` payloads are modelled as `Rat`; every floating-point value appearing
  in a theorem below is a small integer or a dyadic rational, on which the
  `f64` operations performed by the code are exact.
* The columnar-array library (arrow) is an external collaborator of the
  engine; its kernels (`take`, `concat`, elementwise compare/arith) are
  modelled elementwise with null propagation.
-/

namespace RsQueryEngine

/-- The closed enum of data types (`arrow::datatypes::DataType` as used by
the engine: `Null, Boolean, Int64, UInt64, Float64, Utf8`). -/
inductive DataType where
  | null
  | boolean
  | int64
  | uint64
  | float64
  | utf8
  deriving DecidableEq, Repr

/-- Rust `{:?}` rendering of a `DataType`, as used in error messages. -/
def DataType.debug : DataType → String
  | .null => "Null"
  | .boolean => "Boolean"
  | .int64 => "Int64"
  | .uint64 => "UInt64"
  | .float64 => "Float64"
  | .utf8 => "Utf8"

/-- `datatype/field.rs`: a field has a name, a data type and a nullability
flag (the wrapped arrow field). -/
structure Field where
  name : String
  dataType : DataType
  nullable : Bool
  deriving DecidableEq, Repr

/-- `datatype/schema.rs`: a schema is an ordered sequence of fields. -/
structure Schema where
  fields : List Field
  deriving DecidableEq, Repr

/-- `error.rs`: the engine's flat error enum. Payloads of the wrapped
arrow/io errors are kept as strings. -/
inductive Error where
  | NoSuchField
  | ArrowError (detail : String)
  | IOError (detail : String)
  | NoSuchTable (detail : String)
  | LogicalPlanError (detail : String)
  | PhysicalPlanError (detail : String)
  | IntervalError (detail : String)
  | NoSuchColumn (detail : String)
  deriving DecidableEq, Repr

/-- A planner/execution outcome: either a proper `Error` from `error.rs`,
or a Rust panic (`unwrap`/`todo!`/`unimplemented!`). -/
inductive RunError where
  | err (e : Error)
  | panic
  deriving DecidableEq, Repr

/-- Decidable equality of `Except` results, so that concrete runs of the
embedded operations can be settled by `decide`. -/
instance {ε α : Type} [DecidableEq ε] [DecidableEq α] : DecidableEq (Except ε α) :=
  fun x y =>
    match x, y with
    | .ok a, .ok b =>
      if h : a = b then .isTrue (by rw [h])
      else .isFalse (fun hc => h (Except.ok.inj hc))
    | .error a, .error b =>
      if h : a = b then .isTrue (by rw [h])
      else .isFalse (fun hc => h (Except.error.inj hc))
    | .ok _, .error _ => .isFalse (fun hc => Except.noConfusion hc)
    | .error _, .ok _ => .isFalse (fun hc => Except.noConfusion hc)

/-- `Schema::index_of`: first index of the field with the given name,
`NoSuchField` if absent. -/
def Schema.indexOf (s : Schema) (name : String) : Except Error Nat :=
  match s.fields.findIdx? (fun f => f.name = name) with
  | some i => .ok i
  | none => .error .NoSuchField

/-- `Schema::find_field_by_name`: first field with the given name,
`NoSuchField` if absent. -/
def Schema.findFieldByName (s : Schema) (name : String) : Except Error Field :=
  match s.fields.find? (fun f => f.name = name) with
  | some f => .ok f
  | none => .error .NoSuchField

/-- `Schema::join` (used by `DataFrame::join`): concatenation of the two
field lists. -/
def Schema.join (s t : Schema) : Schema :=
  ⟨s.fields ++ t.fields⟩

/-! ## Planner join-key resolution (`planner/mod.rs`, `Join` branch)

The loops in `QueryPlanner::create_physical_plan` for a `Join` node keep a
mutable `left_idx`/`right_idx` initialised to `-1` and overwrite it on every
name match (so the *last* matching index wins), then report `NoSuchColumn`
for an index still equal to `-1`.  Note that the source compares
`field.name() == left_col` on **both** sides (line 95 uses `left_col` while
scanning the right schema, although the error message names `right_col`). -/

/-- The `for (i, field) in schema { if field.name() == col { idx = i } }`
loop: `-1` turned into `Option`, last match wins. -/
def lastIndexOfName (s : Schema) (col : String) : Option Nat :=
  s.fields.enum.foldl
    (fun acc (p : Nat × Field) => if p.2.name = col then some p.1 else acc)
    none

/-- Resolution of a single `(left_col, right_col)` pair against the left and
right physical child schemas, exactly as in the source: the left index is
the last index of `left_col` in the left schema, the right index is the last
index of `left_col` (sic) in the right schema, and a missing index is a
`NoSuchColumn` error (mentioning `left_col` resp. `right_col`). -/
def resolveJoinPair (leftSchema rightSchema : Schema) (pair : String × String) :
    Except Error (Nat × Nat) :=
  let leftIdx := lastIndexOfName leftSchema pair.1
  let rightIdx := lastIndexOfName rightSchema pair.1
  match leftIdx with
  | none => .error (.NoSuchColumn ("Column " ++ pair.1 ++ " does not exist"))
  | some li =>
    match rightIdx with
    | none => .error (.NoSuchColumn ("Column " ++ pair.2 ++ " does not exist"))
    | some ri => .ok (li, ri)

/-- The whole `for (left_col, right_col) in join.on` loop building `on`. -/
def resolveJoinOn (leftSchema rightSchema : Schema) :
    List (String × String) → Except Error (List (Nat × Nat))
  | [] => .ok []
  | pair :: rest => do
    let idxs ← resolveJoinPair leftSchema rightSchema pair
    let restIdxs ← resolveJoinOn leftSchema rightSchema rest
    .ok (idxs :: restIdxs)

/-! ## Scalars, columns and record batches -/

/-- `catalog/scalar.rs`: a tagged, nullable scalar value.  `f64` payloads
are modelled as `Rat` (all values used in theorems are exact in `f64`). -/
inductive Scalar where
  | null
  | boolean (v : Option Bool)
  | float64 (v : Option Rat)
  | int64 (v : Option Int)
  | uint64 (v : Option Nat)
  | utf8 (v : Option String)
  deriving DecidableEq, Repr

/-- `Scalar::to_field`: the field corresponding to a scalar's type (the
field is named after the variant and is nullable). -/
def Scalar.toField : Scalar → Field
  | .null => ⟨"Null", .null, true⟩
  | .boolean _ => ⟨"Boolean", .boolean, true⟩
  | .float64 _ => ⟨"Float64", .float64, true⟩
  | .int64 _ => ⟨"Int64", .int64, true⟩
  | .uint64 _ => ⟨"UInt64", .uint64, true⟩
  | .utf8 _ => ⟨"Utf8", .utf8, true⟩

/-- Modelled from the spec: the canonical string form of a scalar
(§3 "produce its canonical string form").  The file `datatype/scalar.rs`
that carries the `Display` implementation used by `LiteralExpr::to_field`
and `BinaryExpr::to_field` is not present under `src/`; no settled claim
depends on the exact rendering (theorems avoid literal operands). -/
def Scalar.display : Scalar → String
  | .null => "Null"
  | .boolean (some b) => if b then "true" else "false"
  | .float64 (some q) => toString q
  | .int64 (some v) => toString v
  | .uint64 (some v) => toString v
  | .utf8 (some s) => s
  | _ => "NULL"

/-- A typed columnar array: one list of nullable values per element type
(the arrow array downcast targets used by the engine), plus the all-null
`DataType::Null` array. -/
inductive ColumnData where
  | int64Col (vs : List (Option Int))
  | uint64Col (vs : List (Option Nat))
  | float64Col (vs : List (Option Rat))
  | boolCol (vs : List (Option Bool))
  | utf8Col (vs : List (Option String))
  | nullCol (len : Nat)
  deriving DecidableEq, Repr

def ColumnData.dataType : ColumnData → DataType
  | .int64Col _ => .int64
  | .uint64Col _ => .uint64
  | .float64Col _ => .float64
  | .boolCol _ => .boolean
  | .utf8Col _ => .utf8
  | .nullCol _ => .null

def ColumnData.length : ColumnData → Nat
  | .int64Col vs => vs.length
  | .uint64Col vs => vs.length
  | .float64Col vs => vs.length
  | .boolCol vs => vs.length
  | .utf8Col vs => vs.length
  | .nullCol len => len

/-- `Scalar::to_array`: materialize a scalar as a length-`size` column by
repeating its value (`new_null_array` of the scalar's own type for `None`,
except `Boolean` which repeats the option itself). -/
def Scalar.toArray : Scalar → Nat → ColumnData
  | .null, size => .nullCol size
  | .boolean v, size => .boolCol (List.replicate size v)
  | .float64 v, size => .float64Col (List.replicate size v)
  | .int64 v, size => .int64Col (List.replicate size v)
  | .uint64 v, size => .uint64Col (List.replicate size v)
  | .utf8 v, size => .utf8Col (List.replicate size v)

/-- `datatype/column_array.rs`: an owned array or a deferred literal of a
given row count. -/
inductive ColumnArray where
  | array (c : ColumnData)
  | literal (s : Scalar) (len : Nat)
  deriving DecidableEq, Repr

/-- `ColumnArray::data_type`. -/
def ColumnArray.dataType : ColumnArray → DataType
  | .array c => c.dataType
  | .literal s _ => s.toField.dataType

/-- `ColumnArray::to_array`. -/
def ColumnArray.toArray : ColumnArray → ColumnData
  | .array c => c
  | .literal s len => s.toArray len

/-- An arrow `RecordBatch`: a schema plus one column per field. -/
structure Batch where
  schema : Schema
  columns : List ColumnData
  deriving DecidableEq, Repr

/-- `RecordBatch::num_rows` (length of the first column, 0 if none). -/
def Batch.numRows (b : Batch) : Nat :=
  (b.columns.headD (.nullCol 0)).length

/-! ## Operators and expressions -/

/-- `logical_plan/logical_expr.rs`: the binary operator enum. -/
inductive Operator where
  | Eq | Neq | Gt | GtEq | Lt | LtEq | And | Or | Add | Sub | Mul | Div | Mod
  deriving DecidableEq, Repr

/-- Rust `{:?}` rendering of an `Operator` (derived `Debug`). -/
def Operator.debug : Operator → String
  | .Eq => "Eq" | .Neq => "Neq" | .Gt => "Gt" | .GtEq => "GtEq"
  | .Lt => "Lt" | .LtEq => "LtEq" | .And => "And" | .Or => "Or"
  | .Add => "Add" | .Sub => "Sub" | .Mul => "Mul" | .Div => "Div"
  | .Mod => "Mod"

/-- The operator symbol table shared by the logical and the physical
`BinaryExpr::to_field` (`=`, `!=`, `<`, `<=`, `>`, `>=`, `and`, `or`,
`+`, `-`, `*`, `/`, `%`). -/
def Operator.sym : Operator → String
  | .Eq => "=" | .Neq => "!=" | .Lt => "<" | .LtEq => "<=" | .Gt => ">"
  | .GtEq => ">=" | .And => "and" | .Or => "or" | .Add => "+" | .Sub => "-"
  | .Mul => "*" | .Div => "/" | .Mod => "%"

/-- `logical_expr.rs`: the aggregate function enum. -/
inductive AggregateFunc where
  | SUM | MIN | MAX | AVG | COUNT
  deriving DecidableEq, Repr

/-- `logical_expr.rs`: logical expressions.  `AggregateFuncExpr` is inlined
as a constructor carrying its function and argument; the `ScalarFuncExpr`
variant is not used by any settled claim and is omitted. -/
inductive LogicalExpr where
  | binaryExpr (left : LogicalExpr) (op : Operator) (right : LogicalExpr)
  | literal (s : Scalar)
  | alias (name : String) (expr : LogicalExpr)
  | column (name : String)
  | aggregateFuncExpr (func : AggregateFunc) (expr : LogicalExpr)
  deriving DecidableEq, Repr

/-- `physical_plan/expr/*`: physical expressions (`ColumnExpr{index}`,
`LiteralExpr`, `AliasExpr`, `BinaryExpr`). -/
inductive PhysicalExpr where
  | columnExpr (index : Nat)
  | literalExpr (s : Scalar)
  | aliasExpr (name : String) (expr : PhysicalExpr)
  | binaryExpr (left : PhysicalExpr) (op : Operator) (right : PhysicalExpr)
  deriving DecidableEq, Repr

/-! ## Tables and logical plans -/

/-- `datasource/csv.rs`: a loaded table is its schema plus the record
batches read from the file. -/
structure Table where
  schema : Schema
  batches : List Batch
  deriving DecidableEq, Repr

/-- `logical_plan/logical_plan.rs`: the join type enum. -/
inductive JoinType where
  | inner | left | right | crossJoin
  deriving DecidableEq, Repr

/-- The logical plan variant tree, in the shape consumed by the planner and
built by `DataFrame` (`Scan`, `Projection`, `Selection`, `Aggregation` with
a single group expression, `Join`).  Aggregate expressions are
`AggregateFuncExpr` values, carried as (function, argument) pairs. -/
inductive LogicalPlan where
  | scan (source : Table) (projection : Option (List Nat))
  | projection (input : LogicalPlan) (exprs : List LogicalExpr) (schema : Schema)
  | selection (input : LogicalPlan) (expr : LogicalExpr)
  | aggregation (input : LogicalPlan) (groupExpr : LogicalExpr)
      (aggrExpr : List (AggregateFunc × LogicalExpr)) (schema : Schema)
  | join (left : LogicalPlan) (onPairs : List (String × String)) (right : LogicalPlan)
      (joinType : JoinType) (schema : Schema)
  deriving DecidableEq, Repr

/-- `LogicalPlan::schema`: Scan reports the source schema, Selection its
input's schema; Projection, Aggregation and Join report their cached
schema. -/
def LogicalPlan.schema : LogicalPlan → Schema
  | .scan source _ => source.schema
  | .projection _ _ schema => schema
  | .selection input _ => input.schema
  | .aggregation _ _ _ schema => schema
  | .join _ _ _ _ schema => schema

/-! ## Logical field derivation (`LogicalExpr::to_field`)

`BinaryExpr::to_field` (logical) formats the output name as
`"{left} {right} {operator}"` — left name, then right name, then the
operator symbol — and always returns `DataType::Boolean`, for arithmetic
operators included.  `AggregateFuncExpr::to_field` names `MIN`/`MAX`
aggregates `"Min(..)"`/`"Max(..)"`, keeps the argument type for `AVG` and
returns `DataType::Int64` for `COUNT`. -/

/-- `LogicalExpr::to_field` against an input plan, exactly as in
`logical_plan/logical_expr.rs`. -/
def LogicalExpr.toField (input : LogicalPlan) : LogicalExpr → Except Error Field
  | .binaryExpr l op r => do
    let leftField ← l.toField input
    let left := leftField.name
    let right ← match r with
      | .literal s => pure s.display
      | _ => do
        let f ← r.toField input
        pure f.name
    .ok ⟨left ++ " " ++ right ++ " " ++ op.sym, .boolean, true⟩
  | .literal s => .ok s.toField
  | .alias name e => do
    let f ← e.toField input
    .ok ⟨name, f.dataType, f.nullable⟩
  | .column name => input.schema.findFieldByName name
  | .aggregateFuncExpr func e => do
    let f ← e.toField input
    let (name, dataType) := match func with
      | .SUM => ("SUM(" ++ f.name ++ ")", f.dataType)
      | .MIN => ("Min(" ++ f.name ++ ")", f.dataType)
      | .MAX => ("Max(" ++ f.name ++ ")", f.dataType)
      | .AVG => ("AVG(" ++ f.name ++ ")", f.dataType)
      | .COUNT => ("COUNT(" ++ f.name ++ ")", DataType.int64)
    .ok ⟨name, dataType, true⟩

/-! ## Physical field derivation (`PhysicalExpr::to_field`)

The physical derivation differs from the logical one: the physical
`BinaryExpr::to_field` formats `"{left} {op} {right}"` and keeps the left
operand's type for arithmetic operators; `Count::to_field` returns
`UInt64` and `Avg::to_field` returns `Float64`. -/

/-- Physical `BinaryExpr::to_field` operator table: symbol and result type
(`Boolean` for comparisons and logical operators, the left field's type for
arithmetic). -/
def physBinaryFieldParts (op : Operator) (leftType : DataType) : String × DataType :=
  match op with
  | .Eq => ("=", .boolean) | .Neq => ("!=", .boolean) | .Lt => ("<", .boolean)
  | .LtEq => ("<=", .boolean) | .Gt => (">", .boolean) | .GtEq => (">=", .boolean)
  | .And => ("and", .boolean) | .Or => ("or", .boolean)
  | .Add => ("+", leftType) | .Sub => ("-", leftType) | .Mul => ("*", leftType)
  | .Div => ("/", leftType) | .Mod => ("%", leftType)

/-! ## Columnar compute kernels

The arrow kernels are external collaborators of the engine (spec §1); they
are modelled elementwise with null propagation (a result element is null
when either operand element is). -/

/-- Elementwise combination of two nullable columns, null-propagating
(the behaviour of the arrow compare/arith/and/or kernels). -/
def zipOptions (f : α → β → γ) : List (Option α) → List (Option β) → List (Option γ) :=
  List.zipWith (fun a b =>
    match a, b with
    | some x, some y => some (f x y)
    | _, _ => none)

/-- One comparison, given strict-less-than and equality tests.  Only called
with a comparison operator; other operators never reach this table. -/
def cmpBool (op : Operator) (lt : α → α → Bool) (eq : α → α → Bool) (a b : α) : Bool :=
  match op with
  | .Eq => eq a b
  | .Neq => !(eq a b)
  | .Lt => lt a b
  | .LtEq => lt a b || eq a b
  | .Gt => lt b a
  | .GtEq => lt b a || eq a b
  | _ => false

/-- The dynamic compare kernels (`eq_dyn`, `lt_dyn`, ...): both inputs have
the same element type (guaranteed by the caller's type check) and the
result is a boolean column.  A type mismatch — unreachable from
`BinaryExpr::evaluate` — is modelled as a panic. -/
def compareKernel (op : Operator) : ColumnData → ColumnData → Except RunError ColumnData
  | .int64Col a, .int64Col b =>
    .ok (.boolCol (zipOptions (cmpBool op (fun x y => x < y) (fun x y => x = y)) a b))
  | .uint64Col a, .uint64Col b =>
    .ok (.boolCol (zipOptions (cmpBool op (fun x y => x < y) (fun x y => x = y)) a b))
  | .float64Col a, .float64Col b =>
    .ok (.boolCol (zipOptions (cmpBool op (fun x y => x < y) (fun x y => x = y)) a b))
  | .boolCol a, .boolCol b =>
    .ok (.boolCol (zipOptions (cmpBool op (fun x y => !x && y) (fun x y => x = y)) a b))
  | .utf8Col a, .utf8Col b =>
    .ok (.boolCol (zipOptions (cmpBool op (fun x y => decide (x < y)) (fun x y => x = y)) a b))
  | _, _ => .error .panic

/-- Truncated-toward-zero rational value (`f64` arithmetic truncation, as
in Rust's `%` on floats). -/
def ratTrunc (q : Rat) : Int :=
  if q ≥ 0 then q.floor else q.ceil

/-- The arithmetic kernels (`add`, `subtract`, `multiply`, `divide`,
`modulus`), dispatched on the left operand's element type as in the
`arithmetic_op!` macro; the right operand is downcast to the same array
type (a mismatch is a panic).  Integer division or modulus by a zero
divisor is the arrow `DivideByZero` error; `f64` division by zero yields
non-finite values that the rational model cannot represent and no claim
exercises, modelled as a panic.  Unsupported element types are
`unimplemented!()` panics. -/
def arithmeticKernel (op : Operator) : ColumnData → ColumnData → Except RunError ColumnData
  | .int64Col a, .int64Col b =>
    match op with
    | .Add => .ok (.int64Col (zipOptions (fun x y => x + y) a b))
    | .Sub => .ok (.int64Col (zipOptions (fun x y => x - y) a b))
    | .Mul => .ok (.int64Col (zipOptions (fun x y => x * y) a b))
    | .Div =>
      if b.any (fun v => v = some 0) then .error (.err (.ArrowError "DivideByZeroError"))
      else .ok (.int64Col (zipOptions (fun x y => Int.tdiv x y) a b))
    | .Mod =>
      if b.any (fun v => v = some 0) then .error (.err (.ArrowError "DivideByZeroError"))
      else .ok (.int64Col (zipOptions (fun x y => Int.tmod x y) a b))
    | _ => .error .panic
  | .uint64Col a, .uint64Col b =>
    match op with
    | .Add => .ok (.uint64Col (zipOptions (fun x y => x + y) a b))
    | .Sub => .ok (.uint64Col (zipOptions (fun x y => x - y) a b))
    | .Mul => .ok (.uint64Col (zipOptions (fun x y => x * y) a b))
    | .Div =>
      if b.any (fun v => v = some 0) then .error (.err (.ArrowError "DivideByZeroError"))
      else .ok (.uint64Col (zipOptions (fun x y => x / y) a b))
    | .Mod =>
      if b.any (fun v => v = some 0) then .error (.err (.ArrowError "DivideByZeroError"))
      else .ok (.uint64Col (zipOptions (fun x y => x % y) a b))
    | _ => .error .panic
  | .float64Col a, .float64Col b =>
    match op with
    | .Add => .ok (.float64Col (zipOptions (fun x y => x + y) a b))
    | .Sub => .ok (.float64Col (zipOptions (fun x y => x - y) a b))
    | .Mul => .ok (.float64Col (zipOptions (fun x y => x * y) a b))
    | .Div =>
      if b.any (fun v => v = some 0) then .error .panic
      else .ok (.float64Col (zipOptions (fun x y => x / y) a b))
    | .Mod =>
      if b.any (fun v => v = some 0) then .error .panic
      else .ok (.float64Col (zipOptions (fun x y => x - y * ratTrunc (x / y)) a b))
    | _ => .error .panic
  | _, _ => .error .panic

/-- The `IntervalError` message of `BinaryExpr::evaluate` and of the
`binary_op!` macro: `"Cannot evaluate binary expression {op:?} with types
{lt:?} and {rt:?}"`. -/
def mismatchMsg (op : Operator) (lt rt : DataType) : String :=
  "Cannot evaluate binary expression " ++ op.debug ++ " with types " ++
    lt.debug ++ " and " ++ rt.debug

/-- `PhysicalExpr::evaluate` over a record batch, per
`physical_plan/expr/{column,literal,alias,binary}.rs`.  The binary arm
first checks `left.data_type == right.data_type` and otherwise returns the
`IntervalError`; `And`/`Or` additionally require `Boolean` operands. -/
def PhysicalExpr.evaluate (input : Batch) : PhysicalExpr → Except RunError ColumnArray
  | .columnExpr idx =>
    match input.columns.get? idx with
    | some c => .ok (.array c)
    | none => .error .panic
  | .literalExpr s => .ok (.literal s input.numRows)
  | .aliasExpr _ e => do
    let c ← e.evaluate input
    .ok (.array c.toArray)
  | .binaryExpr l op r => do
    let leftValue ← l.evaluate input
    let rightValue ← r.evaluate input
    let leftType := leftValue.dataType
    let rightType := rightValue.dataType
    if leftType ≠ rightType then
      .error (.err (.IntervalError (mismatchMsg op leftType rightType)))
    else
      let leftArray := leftValue.toArray
      let rightArray := rightValue.toArray
      match op with
      | .Eq | .Neq | .Gt | .GtEq | .Lt | .LtEq => do
        let c ← compareKernel op leftArray rightArray
        .ok (.array c)
      | .And | .Or =>
        if leftType ≠ .boolean ∧ rightType ≠ .boolean then
          .error (.err (.IntervalError (mismatchMsg op leftType rightType)))
        else
          match leftArray, rightArray with
          | .boolCol a, .boolCol b =>
            .ok (.array (.boolCol
              (zipOptions (fun x y => if op = .And then x && y else x || y) a b)))
          | _, _ => .error .panic
      | .Add | .Sub | .Mul | .Div | .Mod => do
        let c ← arithmeticKernel op leftArray rightArray
        .ok (.array c)

/-- `PhysicalExpr::to_field` over a record batch.  `ColumnExpr` reads the
batch schema at its index, `LiteralExpr` uses the scalar's display form,
`AliasExpr` evaluates its inner expression to learn the type, and
`BinaryExpr` formats `"{left} {op} {right}"` with `Boolean` for
comparison/logical operators and the left type for arithmetic. -/
def PhysicalExpr.toField (input : Batch) : PhysicalExpr → Except RunError Field
  | .columnExpr idx =>
    match input.schema.fields.get? idx with
    | some f => .ok f
    | none => .error .panic
  | .literalExpr s => .ok ⟨s.display, s.toField.dataType, false⟩
  | .aliasExpr name e => do
    let c ← e.evaluate input
    .ok ⟨name, c.toArray.dataType, false⟩
  | .binaryExpr l op r => do
    let leftField ← l.toField input
    let rightField ← r.toField input
    let parts := physBinaryFieldParts op leftField.dataType
    .ok ⟨leftField.name ++ " " ++ parts.1 ++ " " ++ rightField.name, parts.2, true⟩

/-! ## Aggregate operators (`physical_plan/aggr/*`)

Each operator holds a `ColumnExpr` (kept as its index) and an accumulator.
`Avg::clear` resets only the running sum — the element `count` is left
untouched.  `Min::evaluate` and `Min::clear` are `todo!()`; `Max::clear` is
`todo!()` for `UInt64`/`Float64`.  Panicking paths are `.error .panic`. -/

/-- Number of non-null entries of a column (`len - null_count`). -/
def ColumnData.numValid : ColumnData → Nat
  | .int64Col vs => (vs.filterMap id).length
  | .uint64Col vs => (vs.filterMap id).length
  | .float64Col vs => (vs.filterMap id).length
  | .boolCol vs => (vs.filterMap id).length
  | .utf8Col vs => (vs.filterMap id).length
  | .nullCol _ => 0

/-- `Array::is_null(i)`; `none` when the index is out of bounds (a panic in
the source). -/
def ColumnData.isNullAt : ColumnData → Nat → Option Bool
  | .int64Col vs, i => (vs.get? i).map Option.isNone
  | .uint64Col vs, i => (vs.get? i).map Option.isNone
  | .float64Col vs, i => (vs.get? i).map Option.isNone
  | .boolCol vs, i => (vs.get? i).map Option.isNone
  | .utf8Col vs, i => (vs.get? i).map Option.isNone
  | .nullCol len, i => if i < len then some true else none

/-- `aggr/avg.rs`: running element count and sum. -/
structure AvgState where
  count : Int
  sum : Scalar
  column : Nat
  deriving DecidableEq, Repr

/-- `Avg::new`: zero accumulator of the given numeric type
(`unimplemented!()` otherwise). -/
def Avg.new (dataType : DataType) (column : Nat) : Option AvgState :=
  match dataType with
  | .int64 => some ⟨0, .int64 (some 0), column⟩
  | .uint64 => some ⟨0, .uint64 (some 0), column⟩
  | .float64 => some ⟨0, .float64 (some 0), column⟩
  | _ => none

/-- `Avg::update_batch`: fold every non-null entry of the referenced column
into the sum, incrementing the count per entry.  When the accumulator
variant does not match the column's type the `if let` falls through and
the state is unchanged. -/
def Avg.updateBatch (b : Batch) (s : AvgState) : Except RunError AvgState := do
  let col ← (PhysicalExpr.columnExpr s.column).evaluate b
  match col.toArray with
  | .int64Col vs =>
    match s.sum with
    | .int64 (some sum) =>
      let vals := vs.filterMap id
      .ok ⟨s.count + vals.length, .int64 (some (sum + vals.sum)), s.column⟩
    | _ => .ok s
  | .uint64Col vs =>
    match s.sum with
    | .uint64 (some sum) =>
      let vals := vs.filterMap id
      .ok ⟨s.count + vals.length, .uint64 (some (sum + vals.sum)), s.column⟩
    | _ => .ok s
  | .float64Col vs =>
    match s.sum with
    | .float64 (some sum) =>
      let vals := vs.filterMap id
      .ok ⟨s.count + vals.length, .float64 (some (sum + vals.sum)), s.column⟩
    | _ => .ok s
  | _ => .error .panic

/-- `Avg::update`: fold a single non-null row. -/
def Avg.update (b : Batch) (i : Nat) (s : AvgState) : Except RunError AvgState := do
  let col ← (PhysicalExpr.columnExpr s.column).evaluate b
  match col.toArray with
  | .int64Col vs =>
    match vs.get? i with
    | some (some v) =>
      match s.sum with
      | .int64 (some sum) => .ok ⟨s.count + 1, .int64 (some (sum + v)), s.column⟩
      | _ => .ok s
    | some none => .ok s
    | none => .error .panic
  | .uint64Col vs =>
    match vs.get? i with
    | some (some v) =>
      match s.sum with
      | .uint64 (some sum) => .ok ⟨s.count + 1, .uint64 (some (sum + v)), s.column⟩
      | _ => .ok s
    | some none => .ok s
    | none => .error .panic
  | .float64Col vs =>
    match vs.get? i with
    | some (some v) =>
      match s.sum with
      | .float64 (some sum) => .ok ⟨s.count + 1, .float64 (some (sum + v)), s.column⟩
      | _ => .ok s
    | some none => .ok s
    | none => .error .panic
  | _ => .error .panic

/-- `Avg::evaluate`: `sum as f64 / count as f64` as a `Float64` scalar.
With `count = 0` the `f64` quotient is non-finite, which the rational model
cannot represent; no claim exercises that path, modelled as a panic. -/
def Avg.evaluate (s : AvgState) : Except RunError Scalar :=
  match s.sum with
  | .int64 (some sum) =>
    if s.count = 0 then .error .panic
    else .ok (.float64 (some ((sum : Rat) / (s.count : Rat))))
  | .uint64 (some sum) =>
    if s.count = 0 then .error .panic
    else .ok (.float64 (some ((sum : Rat) / (s.count : Rat))))
  | .float64 (some sum) =>
    if s.count = 0 then .error .panic
    else .ok (.float64 (some (sum / (s.count : Rat))))
  | _ => .error .panic

/-- `Avg::clear`: resets the sum to zero of its type — and leaves `count`
unchanged (`unimplemented!()` for non-numeric sums). -/
def Avg.clear (s : AvgState) : Except RunError AvgState :=
  match s.sum with
  | .int64 _ => .ok ⟨s.count, .int64 (some 0), s.column⟩
  | .uint64 _ => .ok ⟨s.count, .uint64 (some 0), s.column⟩
  | .float64 _ => .ok ⟨s.count, .float64 (some 0), s.column⟩
  | _ => .error .panic

/-- `Avg::to_field`: `AVG(name)`, always `Float64`. -/
def Avg.toField (schema : Schema) (s : AvgState) : Except RunError Field :=
  match schema.fields.get? s.column with
  | some f => .ok ⟨"AVG(" ++ f.name ++ ")", .float64, false⟩
  | none => .error .panic

/-- `aggr/count.rs`: a non-null entry counter. -/
structure CountState where
  count : Nat
  column : Nat
  deriving DecidableEq, Repr

/-- `Count::new`. -/
def Count.new (column : Nat) : CountState := ⟨0, column⟩

/-- `Count::update_batch`: `count += len - null_count`. -/
def Count.updateBatch (b : Batch) (s : CountState) : Except RunError CountState := do
  let col ← (PhysicalExpr.columnExpr s.column).evaluate b
  .ok ⟨s.count + col.toArray.numValid, s.column⟩

/-- `Count::update`: `count += 1` when row `i` is non-null. -/
def Count.update (b : Batch) (i : Nat) (s : CountState) : Except RunError CountState := do
  let col ← (PhysicalExpr.columnExpr s.column).evaluate b
  match col.toArray.isNullAt i with
  | some false => .ok ⟨s.count + 1, s.column⟩
  | some true => .ok s
  | none => .error .panic

/-- `Count::evaluate`: the count as a `UInt64` scalar. -/
def Count.evaluate (s : CountState) : Except RunError Scalar :=
  .ok (.uint64 (some s.count))

/-- `Count::clear`: reset the count to 0. -/
def Count.clear (s : CountState) : Except RunError CountState :=
  .ok ⟨0, s.column⟩

/-- `Count::to_field`: `COUNT(name)`, always `UInt64`. -/
def Count.toField (schema : Schema) (s : CountState) : Except RunError Field :=
  match schema.fields.get? s.column with
  | some f => .ok ⟨"COUNT(" ++ f.name ++ ")", .uint64, false⟩
  | none => .error .panic

/-- `aggr/sum.rs`: a running sum. -/
structure SumState where
  sum : Scalar
  column : Nat
  deriving DecidableEq, Repr

/-- `Sum::new`: zero of the given numeric type (`unimplemented!()`
otherwise). -/
def Sum.new (dataType : DataType) (column : Nat) : Option SumState :=
  match dataType with
  | .int64 => some ⟨.int64 (some 0), column⟩
  | .uint64 => some ⟨.uint64 (some 0), column⟩
  | .float64 => some ⟨.float64 (some 0), column⟩
  | _ => none

/-- `Sum::update_batch`: add every non-null entry (state unchanged when the
accumulator variant differs from the column type). -/
def Sum.updateBatch (b : Batch) (s : SumState) : Except RunError SumState := do
  let col ← (PhysicalExpr.columnExpr s.column).evaluate b
  match col.toArray with
  | .int64Col vs =>
    match s.sum with
    | .int64 (some sum) => .ok ⟨.int64 (some (sum + (vs.filterMap id).sum)), s.column⟩
    | _ => .ok s
  | .uint64Col vs =>
    match s.sum with
    | .uint64 (some sum) => .ok ⟨.uint64 (some (sum + (vs.filterMap id).sum)), s.column⟩
    | _ => .ok s
  | .float64Col vs =>
    match s.sum with
    | .float64 (some sum) => .ok ⟨.float64 (some (sum + (vs.filterMap id).sum)), s.column⟩
    | _ => .ok s
  | _ => .error .panic

/-- `Sum::update`: add row `i` when non-null. -/
def Sum.update (b : Batch) (i : Nat) (s : SumState) : Except RunError SumState := do
  let col ← (PhysicalExpr.columnExpr s.column).evaluate b
  match col.toArray with
  | .int64Col vs =>
    match vs.get? i with
    | some (some v) =>
      match s.sum with
      | .int64 (some sum) => .ok ⟨.int64 (some (sum + v)), s.column⟩
      | _ => .ok s
    | some none => .ok s
    | none => .error .panic
  | .uint64Col vs =>
    match vs.get? i with
    | some (some v) =>
      match s.sum with
      | .uint64 (some sum) => .ok ⟨.uint64 (some (sum + v)), s.column⟩
      | _ => .ok s
    | some none => .ok s
    | none => .error .panic
  | .float64Col vs =>
    match vs.get? i with
    | some (some v) =>
      match s.sum with
      | .float64 (some sum) => .ok ⟨.float64 (some (sum + v)), s.column⟩
      | _ => .ok s
    | some none => .ok s
    | none => .error .panic
  | _ => .error .panic

/-- `Sum::evaluate`: the current sum. -/
def Sum.evaluate (s : SumState) : Except RunError Scalar := .ok s.sum

/-- `Sum::clear`: reset the sum to zero of its type. -/
def Sum.clear (s : SumState) : Except RunError SumState :=
  match s.sum with
  | .int64 _ => .ok ⟨.int64 (some 0), s.column⟩
  | .uint64 _ => .ok ⟨.uint64 (some 0), s.column⟩
  | .float64 _ => .ok ⟨.float64 (some 0), s.column⟩
  | _ => .error .panic

/-- `Sum::to_field`: `SUM(name)`, the column's type. -/
def Sum.toField (schema : Schema) (s : SumState) : Except RunError Field :=
  match schema.fields.get? s.column with
  | some f => .ok ⟨"SUM(" ++ f.name ++ ")", f.dataType, false⟩
  | none => .error .panic

/-- `i64::MAX`. -/
def i64Max : Int := 2 ^ 63 - 1
/-- `i64::MIN`. -/
def i64Min : Int := -(2 ^ 63)
/-- `u64::MAX`. -/
def u64Max : Nat := 2 ^ 64 - 1
/-- `f64::MAX` (exactly `(2 - 2⁻⁵²) · 2¹⁰²³`). -/
def f64Max : Rat := (2 ^ 1024 : Rat) - 2 ^ 971
/-- `f64::MIN` (`-f64::MAX`). -/
def f64Min : Rat := -f64Max

/-- `aggr/min.rs`: a running minimum. -/
structure MinState where
  min : Scalar
  column : Nat
  deriving DecidableEq, Repr

/-- `Min::new`: the type's maximum value (`unimplemented!()` otherwise). -/
def Min.new (dataType : DataType) (column : Nat) : Option MinState :=
  match dataType with
  | .int64 => some ⟨.int64 (some i64Max), column⟩
  | .uint64 => some ⟨.uint64 (some u64Max), column⟩
  | .float64 => some ⟨.float64 (some f64Max), column⟩
  | _ => none

/-- One strict-minimum fold step of the `update_batch!` macro in
`aggr/min.rs` (`if val < cur_min { min = val }`). -/
def minFold (lt : α → α → Bool) (cur : α) (vals : List α) : α :=
  vals.foldl (fun m v => if lt v m then v else m) cur

/-- `Min::update_batch`: strict-minimum fold over the non-null entries
(state unchanged when the accumulator variant differs). -/
def Min.updateBatch (b : Batch) (s : MinState) : Except RunError MinState := do
  let col ← (PhysicalExpr.columnExpr s.column).evaluate b
  match col.toArray with
  | .int64Col vs =>
    match s.min with
    | .int64 (some cur) => .ok ⟨.int64 (some (minFold (fun x y => decide (x < y)) cur (vs.filterMap id))), s.column⟩
    | _ => .ok s
  | .uint64Col vs =>
    match s.min with
    | .uint64 (some cur) => .ok ⟨.uint64 (some (minFold (fun x y => decide (x < y)) cur (vs.filterMap id))), s.column⟩
    | _ => .ok s
  | .float64Col vs =>
    match s.min with
    | .float64 (some cur) => .ok ⟨.float64 (some (minFold (fun x y => decide (x < y)) cur (vs.filterMap id))), s.column⟩
    | _ => .ok s
  | _ => .error .panic

/-- `Min::update`: fold row `i` when non-null. -/
def Min.update (b : Batch) (i : Nat) (s : MinState) : Except RunError MinState := do
  let col ← (PhysicalExpr.columnExpr s.column).evaluate b
  match col.toArray with
  | .int64Col vs =>
    match vs.get? i with
    | some (some v) =>
      match s.min with
      | .int64 (some cur) => .ok ⟨.int64 (some (if v < cur then v else cur)), s.column⟩
      | _ => .ok s
    | some none => .ok s
    | none => .error .panic
  | .uint64Col vs =>
    match vs.get? i with
    | some (some v) =>
      match s.min with
      | .uint64 (some cur) => .ok ⟨.uint64 (some (if v < cur then v else cur)), s.column⟩
      | _ => .ok s
    | some none => .ok s
    | none => .error .panic
  | .float64Col vs =>
    match vs.get? i with
    | some (some v) =>
      match s.min with
      | .float64 (some cur) => .ok ⟨.float64 (some (if v < cur then v else cur)), s.column⟩
      | _ => .ok s
    | some none => .ok s
    | none => .error .panic
  | _ => .error .panic

/-- `Min::evaluate` is `todo!()` — it panics unconditionally. -/
def Min.evaluate (_ : MinState) : Except RunError Scalar := .error .panic

/-- `Min::clear` is `todo!()` — it panics unconditionally. -/
def Min.clear (_ : MinState) : Except RunError MinState := .error .panic

/-- `Min::to_field`: `MIN(name)`, the column's type. -/
def Min.toField (schema : Schema) (s : MinState) : Except RunError Field :=
  match schema.fields.get? s.column with
  | some f => .ok ⟨"MIN(" ++ f.name ++ ")", f.dataType, false⟩
  | none => .error .panic

/-- `aggr/max.rs`: a running maximum. -/
structure MaxState where
  max : Scalar
  column : Nat
  deriving DecidableEq, Repr

/-- `Max::new`: the type's minimum value (`unimplemented!()` otherwise). -/
def Max.new (dataType : DataType) (column : Nat) : Option MaxState :=
  match dataType with
  | .int64 => some ⟨.int64 (some i64Min), column⟩
  | .uint64 => some ⟨.uint64 (some 0), column⟩
  | .float64 => some ⟨.float64 (some f64Min), column⟩
  | _ => none

/-- One strict-maximum fold step of the `update_batch!` macro in
`aggr/max.rs` (`if val > cur_max { max = val }`). -/
def maxFold (lt : α → α → Bool) (cur : α) (vals : List α) : α :=
  vals.foldl (fun m v => if lt m v then v else m) cur

/-- `Max::update_batch`: strict-maximum fold over the non-null entries. -/
def Max.updateBatch (b : Batch) (s : MaxState) : Except RunError MaxState := do
  let col ← (PhysicalExpr.columnExpr s.column).evaluate b
  match col.toArray with
  | .int64Col vs =>
    match s.max with
    | .int64 (some cur) => .ok ⟨.int64 (some (maxFold (fun x y => decide (x < y)) cur (vs.filterMap id))), s.column⟩
    | _ => .ok s
  | .uint64Col vs =>
    match s.max with
    | .uint64 (some cur) => .ok ⟨.uint64 (some (maxFold (fun x y => decide (x < y)) cur (vs.filterMap id))), s.column⟩
    | _ => .ok s
  | .float64Col vs =>
    match s.max with
    | .float64 (some cur) => .ok ⟨.float64 (some (maxFold (fun x y => decide (x < y)) cur (vs.filterMap id))), s.column⟩
    | _ => .ok s
  | _ => .error .panic

/-- `Max::update`: fold row `i` when non-null. -/
def Max.update (b : Batch) (i : Nat) (s : MaxState) : Except RunError MaxState := do
  let col ← (PhysicalExpr.columnExpr s.column).evaluate b
  match col.toArray with
  | .int64Col vs =>
    match vs.get? i with
    | some (some v) =>
      match s.max with
      | .int64 (some cur) => .ok ⟨.int64 (some (if cur < v then v else cur)), s.column⟩
      | _ => .ok s
    | some none => .ok s
    | none => .error .panic
  | .uint64Col vs =>
    match vs.get? i with
    | some (some v) =>
      match s.max with
      | .uint64 (some cur) => .ok ⟨.uint64 (some (if cur < v then v else cur)), s.column⟩
      | _ => .ok s
    | some none => .ok s
    | none => .error .panic
  | .float64Col vs =>
    match vs.get? i with
    | some (some v) =>
      match s.max with
      | .float64 (some cur) => .ok ⟨.float64 (some (if cur < v then v else cur)), s.column⟩
      | _ => .ok s
    | some none => .ok s
    | none => .error .panic
  | _ => .error .panic

/-- `Max::evaluate`: the current maximum. -/
def Max.evaluate (s : MaxState) : Except RunError Scalar := .ok s.max

/-- `Max::clear`: `Int64` resets to `i64::MIN`; the `UInt64` and `Float64`
arms are `todo!()` — they panic. -/
def Max.clear (s : MaxState) : Except RunError MaxState :=
  match s.max with
  | .int64 _ => .ok ⟨.int64 (some i64Min), s.column⟩
  | .uint64 _ => .error .panic
  | .float64 _ => .error .panic
  | _ => .error .panic

/-- `Max::to_field`: `MAX(name)`, the column's type. -/
def Max.toField (schema : Schema) (s : MaxState) : Except RunError Field :=
  match schema.fields.get? s.column with
  | some f => .ok ⟨"MAX(" ++ f.name ++ ")", f.dataType, false⟩
  | none => .error .panic

/-! ## Nested-loop join execution (`physical_plan/nested_loop_join.rs`)

`execute` first rejects an empty `on` list; per key pair it evaluates both
key columns, sizes a pair of boolean match-vectors, rejects pairs whose
column types differ with `PhysicalPlanError`, and *unconditionally
downcasts both columns to `Int64` arrays* — a failed downcast (equal but
non-`Int64` types) is a panic.  The embedding works on the two already
concatenated child tables (`outer_table`, `inner_table`). -/

/-- The nested `for (left_pos, left_val) / for (right_pos, right_val)` loops
of one key pair: mark `left_flags[l]` and `right_flags[r]` whenever both
values are non-null and equal. -/
def markMatches (leftCol rightCol : List (Option Int)) : List Bool × List Bool :=
  leftCol.enum.foldl
    (fun acc lp =>
      rightCol.enum.foldl
        (fun (acc : List Bool × List Bool) rp =>
          match lp.2, rp.2 with
          | some lv, some rv =>
            if lv = rv then (acc.1.set lp.1 true, acc.2.set rp.1 true) else acc
          | _, _ => acc)
        acc)
    (List.replicate leftCol.length false, List.replicate rightCol.length false)

/-- The `for (i, (left_col, right_col)) in self.on` loop: evaluate both key
columns, check the types, downcast to `Int64` (panic otherwise) and collect
the per-pair match-vectors. -/
def collectJoinFlags (outerTable innerTable : Batch) :
    List (Nat × Nat) → Except RunError (List (List Bool) × List (List Bool))
  | [] => .ok ([], [])
  | (li, ri) :: rest => do
    let leftCol ← (PhysicalExpr.columnExpr li).evaluate outerTable
    let rightCol ← (PhysicalExpr.columnExpr ri).evaluate innerTable
    let leftArr := leftCol.toArray
    let rightArr := rightCol.toArray
    if leftArr.dataType ≠ rightArr.dataType then
      .error (.err (.PhysicalPlanError "Left and right types of on should match"))
    else
      match leftArr, rightArr with
      | .int64Col lvs, .int64Col rvs => do
        let (lf, rf) := markMatches lvs rvs
        let (lfs, rfs) ← collectJoinFlags outerTable innerTable rest
        .ok (lf :: lfs, rf :: rfs)
      | _, _ => .error .panic

/-- The left position filter: `flag` starts `true` and is cleared (with a
`break`) by the first key pair whose left match-vector is false there —
i.e. the position survives iff **every** pair's vector is true there. -/
def joinLeftFlag (leftFlags : List (List Bool)) (pos : Nat) : Bool :=
  leftFlags.all (fun lf => lf.getD pos false)

/-- The right position filter: `flag` starts `false` and is *overwritten*
(no short-circuit) by each key pair's right match-vector in turn — the
position survives iff the **last** pair's vector is true there. -/
def joinRightFlag (rightFlags : List (List Bool)) (pos : Nat) : Bool :=
  rightFlags.foldl (fun _ rf => rf.getD pos false) false

/-- `outer_pos`: the surviving left row positions, in order. -/
def outerPositions (leftFlags : List (List Bool)) (len : Nat) : List Nat :=
  (List.range len).filter (joinLeftFlag leftFlags)

/-- `inner_pos`: the surviving right row positions, in order. -/
def innerPositions (rightFlags : List (List Bool)) (len : Nat) : List Nat :=
  (List.range len).filter (joinRightFlag rightFlags)

/-- The arrow `take` kernel: gather rows of a column by position. -/
def ColumnData.take (c : ColumnData) (idxs : List Nat) : ColumnData :=
  match c with
  | .int64Col vs => .int64Col (idxs.map (fun i => vs.getD i none))
  | .uint64Col vs => .uint64Col (idxs.map (fun i => vs.getD i none))
  | .float64Col vs => .float64Col (idxs.map (fun i => vs.getD i none))
  | .boolCol vs => .boolCol (idxs.map (fun i => vs.getD i none))
  | .utf8Col vs => .utf8Col (idxs.map (fun i => vs.getD i none))
  | .nullCol _ => .nullCol idxs.length

/-- `NestedLoopJoin::execute` on the materialized child tables: guard the
empty `on` list, build the match-vectors, select positions (`all` on the
left, last-write-wins on the right, both bounded by the first vector's
length), and `take` every left column then every right column into one
output batch carrying the cached schema. -/
def nestedLoopJoinExecute (outerTable innerTable : Batch)
    (onIdx : List (Nat × Nat)) (schema : Schema) : Except RunError Batch :=
  if onIdx.isEmpty then
    .error (.err (.PhysicalPlanError
      "`on` cannot be empty when executing nested loop join"))
  else do
    let (leftFlags, rightFlags) ← collectJoinFlags outerTable innerTable onIdx
    let leftColumnLen := (leftFlags.headD []).length
    let rightColumnLen := (rightFlags.headD []).length
    let outerPos := outerPositions leftFlags leftColumnLen
    let innerPos := innerPositions rightFlags rightColumnLen
    let columns := outerTable.columns.map (fun c => c.take outerPos) ++
      innerTable.columns.map (fun c => c.take innerPos)
    .ok ⟨schema, columns⟩

/-! ## Selection execution (`physical_plan/selection.rs`) -/

/-- The `build_array_by_predicate!` macro: zip the predicate with the
column; `Some(true)` keeps the entry (its own null-ness included),
`Some(false)` drops it, `None` (a null predicate) appends a null. -/
def buildArrayByPredicate : List (Option Bool) → List (Option α) → List (Option α)
  | [], _ => []
  | _, [] => []
  | some true :: ps, v :: vs => v :: buildArrayByPredicate ps vs
  | some false :: ps, _ :: vs => buildArrayByPredicate ps vs
  | none :: ps, _ :: vs => none :: buildArrayByPredicate ps vs

/-- The per-column type dispatch of `Selection::execute`: the same macro
body for each of `Bool, Int64, UInt64, Float64, Utf8`; any other element
type is `unimplemented!()`. -/
def ColumnData.filterByPredicate (pred : List (Option Bool)) :
    ColumnData → Except RunError ColumnData
  | .boolCol vs => .ok (.boolCol (buildArrayByPredicate pred vs))
  | .int64Col vs => .ok (.int64Col (buildArrayByPredicate pred vs))
  | .uint64Col vs => .ok (.uint64Col (buildArrayByPredicate pred vs))
  | .float64Col vs => .ok (.float64Col (buildArrayByPredicate pred vs))
  | .utf8Col vs => .ok (.utf8Col (buildArrayByPredicate pred vs))
  | .nullCol _ => .error .panic

/-- `Selection::execute` restricted to one input batch: evaluate the
predicate (`.unwrap()` — an expression error is a panic), downcast it to a
boolean array (panic otherwise) and rebuild every column through the
predicate; the output batch carries the input schema. -/
def selectionExecuteBatch (expr : PhysicalExpr) (b : Batch) : Except RunError Batch := do
  let predValue ← match expr.evaluate b with
    | .ok v => pure v
    | .error _ => Except.error RunError.panic
  match predValue.toArray with
  | .boolCol pred => do
    let columns ← b.columns.mapM (ColumnData.filterByPredicate pred)
    .ok ⟨b.schema, columns⟩
  | _ => .error .panic

/-- `Selection::execute` over the whole input batch list. -/
def selectionExecute (expr : PhysicalExpr) (input : List Batch) :
    Except RunError (List Batch) :=
  input.mapM (selectionExecuteBatch expr)

/-! ## Physical plans and the planner (`planner/mod.rs`)

The planner's `Aggregation` branch ends in
`Aggregation::new(input, Some(group_expr), aggr_expr)` — three arguments —
while `physical_plan/aggr/mod.rs` declares
`Aggregation::new(input, group_expr, aggr_expr, schema)` with a fourth,
mandatory `schema` parameter that backs `Aggregation::schema()`.  The call
therefore does not type-check (E0061) and, as written, hands the physical
aggregation no schema at all.  The embedding keeps exactly the three
arguments the planner passes; consequently `PhysicalPlan.schemaOpt` has no
schema to report for an aggregation node and returns `none` there. -/

/-- A planned aggregate operator (the `AggrOperatorRef` list built by the
planner's `Aggregation` branch). -/
inductive AggrOperator where
  | sum (s : SumState)
  | min (s : MinState)
  | max (s : MaxState)
  | avg (s : AvgState)
  | count (s : CountState)
  deriving DecidableEq, Repr

/-- The physical plan tree as the planner constructs it. -/
inductive PhysicalPlan where
  | scan (source : Table) (projection : Option (List Nat))
  | projection (input : PhysicalPlan) (schema : Schema) (exprs : List PhysicalExpr)
  | selection (input : PhysicalPlan) (expr : PhysicalExpr)
  | aggregation (input : PhysicalPlan) (groupExpr : Option PhysicalExpr)
      (aggrExpr : List AggrOperator)
  | nestedLoopJoin (left : PhysicalPlan) (right : PhysicalPlan)
      (onIdx : List (Nat × Nat)) (schema : Schema)
  deriving DecidableEq, Repr

/-- `PhysicalPlan::schema()` per operator: Scan reports the (unprojected)
source schema, Projection and NestedLoopJoin their cached schema, Selection
its input's schema.  The planner gives an aggregation node no schema (see
the section comment), hence `none`. -/
def PhysicalPlan.schemaOpt : PhysicalPlan → Option Schema
  | .scan source _ => some source.schema
  | .projection _ schema _ => some schema
  | .selection input _ => input.schemaOpt
  | .aggregation _ _ _ => none
  | .nestedLoopJoin _ _ _ schema => some schema

/-- `QueryPlanner::create_physical_expr`: `Column(name)` resolves to the
*first* index of the name in the input plan's schema (`NoSuchColumn` if
absent); a logical `AggregateFuncExpr` outside an `Aggregation` branch is
`todo!()` — a panic. -/
def createPhysicalExpr (input : LogicalPlan) : LogicalExpr → Except RunError PhysicalExpr
  | .binaryExpr l op r => do
    let leftExpr ← createPhysicalExpr input l
    let rightExpr ← createPhysicalExpr input r
    .ok (.binaryExpr leftExpr op rightExpr)
  | .literal s => .ok (.literalExpr s)
  | .alias name e => do
    let pe ← createPhysicalExpr input e
    .ok (.aliasExpr name pe)
  | .column name =>
    match input.schema.fields.findIdx? (fun f => f.name = name) with
    | some i => .ok (.columnExpr i)
    | none => .error (.err (.NoSuchColumn ("Column " ++ name ++ " does not exist")))
  | .aggregateFuncExpr _ _ => .error .panic

/-- The planner's per-aggregate dispatch: plan the argument expression,
downcast it to a `ColumnExpr` (`unwrap` — a panic otherwise) and build the
operator, parameterizing `SUM/MIN/MAX/AVG` by the *group* field's data type
(`unimplemented!()` inside `new` for unsupported types). -/
def planAggrOperator (input : LogicalPlan) (groupField : Field)
    (fe : AggregateFunc × LogicalExpr) : Except RunError AggrOperator := do
  let col ← createPhysicalExpr input fe.2
  let colIdx ← match col with
    | .columnExpr i => pure i
    | _ => Except.error RunError.panic
  match fe.1 with
  | .SUM =>
    match Sum.new groupField.dataType colIdx with
    | some s => .ok (.sum s)
    | none => .error .panic
  | .MIN =>
    match Min.new groupField.dataType colIdx with
    | some s => .ok (.min s)
    | none => .error .panic
  | .MAX =>
    match Max.new groupField.dataType colIdx with
    | some s => .ok (.max s)
    | none => .error .panic
  | .AVG =>
    match Avg.new groupField.dataType colIdx with
    | some s => .ok (.avg s)
    | none => .error .panic
  | .COUNT => .ok (.count (Count.new colIdx))

/-- `QueryPlanner::create_physical_plan`.  The `Projection` branch plans
its expressions with `.unwrap()` (an expression error is a panic) before
recursing on the input; the `Join` branch recursively plans both children
and resolves each `(left_col, right_col)` name pair against the physical
child schemas (see `resolveJoinPair` for the exact loops). -/
def createPhysicalPlan : LogicalPlan → Except RunError PhysicalPlan
  | .scan source projection => .ok (.scan source projection)
  | .projection input exprs schema => do
    let pexprs ← exprs.mapM (fun e =>
      match createPhysicalExpr input e with
      | .ok pe => Except.ok pe
      | .error _ => Except.error RunError.panic)
    let pinput ← createPhysicalPlan input
    .ok (.projection pinput schema pexprs)
  | .selection input expr => do
    let pexpr ← createPhysicalExpr input expr
    let pinput ← createPhysicalPlan input
    .ok (.selection pinput pexpr)
  | .aggregation input groupExpr aggrExpr _schema => do
    let field ← match groupExpr.toField input with
      | .ok f => pure f
      | .error e => Except.error (RunError.err e)
    let pgroup ← createPhysicalExpr input groupExpr
    let ops ← aggrExpr.mapM (planAggrOperator input field)
    let pinput ← createPhysicalPlan input
    .ok (.aggregation pinput (some pgroup) ops)
  | .join left onPairs right _joinType schema => do
    let pleft ← createPhysicalPlan left
    let pright ← createPhysicalPlan right
    let leftSchema ← match pleft.schemaOpt with
      | some s => pure s
      | none => Except.error RunError.panic
    let rightSchema ← match pright.schemaOpt with
      | some s => pure s
      | none => Except.error RunError.panic
    let onIdx ← match resolveJoinOn leftSchema rightSchema onPairs with
      | .ok idxs => pure idxs
      | .error e => Except.error (RunError.err e)
    .ok (.nestedLoopJoin pleft pright onIdx schema)

/-! ## Catalog (`catalog/catalog.rs`) -/

/-- A `DataFrame` wraps a logical plan. -/
structure DataFrame where
  plan : LogicalPlan
  deriving DecidableEq, Repr

/-- The catalog's `HashMap<String, Arc<dyn Table>>`, modelled as an
association list with the map's insert-replaces-existing-binding
semantics. -/
def Catalog := List (String × Table)

/-- `HashMap::insert`: replace the binding of an existing key, append a new
key otherwise. -/
def hashMapInsert (m : List (String × Table)) (k : String) (v : Table) :
    List (String × Table) :=
  match m with
  | [] => [(k, v)]
  | (k', v') :: rest =>
    if k' = k then (k, v) :: rest else (k', v') :: hashMapInsert rest k v

/-- `HashMap::get`. -/
def hashMapGet (m : List (String × Table)) (k : String) : Option Table :=
  (m.find? (fun p => p.1 = k)).map Prod.snd

/-- `Catalog::add_csv_table`: load the CSV file and insert the resulting
table under the given name.  File I/O (`CSVTable::try_create_table`) is
external to the core; it is passed in as the `load` function. -/
def Catalog.addCsvTable (load : String → Except Error Table) (cat : Catalog)
    (tableName csvFile : String) : Except Error Catalog :=
  match load csvFile with
  | .ok t => .ok (hashMapInsert cat tableName t)
  | .error e => .error e

/-- `Catalog::get_table_by_name`: map lookup, `NoSuchTable` on a miss. -/
def Catalog.getTableByName (cat : Catalog) (tableName : String) : Except Error Table :=
  match hashMapGet cat tableName with
  | some t => .ok t
  | none => .error (.NoSuchTable ("Table " ++ tableName ++ " does not exist"))

/-- `Catalog::get_table_df`: wrap the table in a projection-less `Scan`
plan inside a `DataFrame`; `NoSuchTable` (with the other message) on a
miss. -/
def Catalog.getTableDf (cat : Catalog) (tableName : String) : Except Error DataFrame :=
  match hashMapGet cat tableName with
  | some t => .ok ⟨.scan t none⟩
  | none => .error (.NoSuchTable ("No table named: " ++ tableName))

/-! ## Concrete fixtures used by the theorems -/

/-- A one-field `Int64` schema named `a` (left side of the C1 join). -/
def schemaA : Schema := ⟨[⟨"a", .int64, false⟩]⟩

/-- A one-field `Int64` schema named `b` (right side of the C1 join). -/
def schemaB : Schema := ⟨[⟨"b", .int64, false⟩]⟩

/-- A two-field `Int64` schema `[b, a]` (right side of the C1 join whose
`b` sits at index 0 and which also contains an `a`). -/
def schemaBA : Schema := ⟨[⟨"b", .int64, false⟩, ⟨"a", .int64, false⟩]⟩

/-- A table with schema `[id : Int64, score : Float64]` and no rows. -/
def idScoreTable : Table :=
  ⟨⟨[⟨"id", .int64, false⟩, ⟨"score", .float64, false⟩]⟩, []⟩

/-- A projection-less scan of `idScoreTable`. -/
def idScoreScan : LogicalPlan := .scan idScoreTable none

/-! ## C1 — planner join-key resolution -/

/-- Claim C1 (code bug): the planner is supposed to resolve each
`(left_name, right_name)` join key pair positionally — `right_name` against
the right child's schema.  The source instead scans the right schema for
`left_name` (planner/mod.rs line 95), while the error message names
`right_name`.  At `on = [("a","b")]` with left schema `[a]` and right
schema `[b]` the planner reports `NoSuchColumn "Column b does not exist"`
although `b` is a field of the right schema; with right schema `[b, a]` it
silently resolves the right side to the index of `a` (1) instead of the
index of `b` (0).  The same outcomes surface through
`create_physical_plan` on a join of two scans. -/
theorem c1_join_right_key_resolved_by_left_name :
    resolveJoinOn schemaA schemaB [("a", "b")] =
      .error (.NoSuchColumn "Column b does not exist")
    ∧ schemaB.fields.any (fun f => f.name = "b") = true
    ∧ resolveJoinOn schemaA schemaBA [("a", "b")] = .ok [(0, 1)]
    ∧ lastIndexOfName schemaBA "b" = some 0
    ∧ (0, 1) ≠ ((0 : Nat), (0 : Nat))
    ∧ createPhysicalPlan
        (.join (.scan ⟨schemaA, []⟩ none) [("a", "b")] (.scan ⟨schemaB, []⟩ none)
          .inner (Schema.join schemaA schemaB)) =
      .error (.err (.NoSuchColumn "Column b does not exist")) := by
  refine ⟨by decide, by decide, by decide, by decide, by decide, by decide⟩

/-! ## C3 — aggregate `clear()` -/

/-- A one-column `Int64` batch holding the single value 4. -/
def batchFour : Batch := ⟨⟨[⟨"c", .int64, false⟩]⟩, [.int64Col [some 4]]⟩

/-- A one-column `Int64` batch holding the single value 2. -/
def batchTwo : Batch := ⟨⟨[⟨"c", .int64, false⟩]⟩, [.int64Col [some 2]]⟩

/-- Claim C3 (code bug): `clear()` is supposed to reset the *entire*
accumulator to its identity, so that clear-then-update behaves like a fresh
operator.  `Avg::clear` resets only the sum and leaves the element count:
starting from a fresh `Int64` average, feeding 4, clearing, feeding 2 and
evaluating yields `2/2 = 1.0`, whereas the fresh operator fed 2 yields
`2/1 = 2.0`.  `Min::clear` (every type) panics (`todo!()`) instead of
resetting to the type's maximum, as does `Max::clear` for `UInt64`. -/
theorem c3_clear_does_not_reset_accumulator :
    Avg.new .int64 0 = some ⟨0, .int64 (some 0), 0⟩
    ∧ Avg.updateBatch batchFour ⟨0, .int64 (some 0), 0⟩ =
        .ok ⟨1, .int64 (some 4), 0⟩
    ∧ Avg.clear ⟨1, .int64 (some 4), 0⟩ = .ok ⟨1, .int64 (some 0), 0⟩
    ∧ (⟨1, .int64 (some 0), 0⟩ : AvgState) ≠ ⟨0, .int64 (some 0), 0⟩
    ∧ Avg.updateBatch batchTwo ⟨1, .int64 (some 0), 0⟩ =
        .ok ⟨2, .int64 (some 2), 0⟩
    ∧ Avg.evaluate ⟨2, .int64 (some 2), 0⟩ = .ok (.float64 (some 1))
    ∧ Avg.updateBatch batchTwo ⟨0, .int64 (some 0), 0⟩ =
        .ok ⟨1, .int64 (some 2), 0⟩
    ∧ Avg.evaluate ⟨1, .int64 (some 2), 0⟩ = .ok (.float64 (some 2))
    ∧ (Scalar.float64 (some 1)) ≠ (.float64 (some 2))
    ∧ Min.clear ⟨.int64 (some i64Max), 0⟩ = .error .panic
    ∧ Min.evaluate ⟨.int64 (some i64Max), 0⟩ = .error .panic
    ∧ Max.clear ⟨.uint64 (some 0), 0⟩ = .error .panic := by
  refine ⟨by decide, by decide, by decide, by decide, by decide, ?_,
    by decide, ?_, by decide, by decide, by decide, by decide⟩
  · simp [Avg.evaluate]
  · simp [Avg.evaluate]

/-! ## C4 — logical aggregate field derivation -/

/-- Claim C4 (code bug): the logical `AggregateFuncExpr::to_field` is
supposed to name the field `"{FN}({arg})"` with an upper-case function name
and to type `COUNT` as `UInt64` and `AVG` as `Float64`.  The source names
`MIN`/`MAX` fields `"Min(..)"`/`"Max(..)"`, types `COUNT` as `Int64` and
keeps the argument's type for `AVG` — contradicting the physical operators
(`Count::to_field` is `UInt64`, `Avg::to_field` is `Float64`,
`Min::to_field` is `"MIN(..)"`) and `Count::evaluate`, which emits `UInt64`
scalars. -/
theorem c4_logical_aggregate_field_derivation_diverges :
    (LogicalExpr.aggregateFuncExpr .COUNT (.column "score")).toField idScoreScan =
      .ok ⟨"COUNT(score)", .int64, true⟩
    ∧ Count.toField idScoreTable.schema ⟨0, 1⟩ = .ok ⟨"COUNT(score)", .uint64, false⟩
    ∧ DataType.int64 ≠ DataType.uint64
    ∧ (LogicalExpr.aggregateFuncExpr .AVG (.column "id")).toField idScoreScan =
      .ok ⟨"AVG(id)", .int64, true⟩
    ∧ Avg.toField idScoreTable.schema ⟨0, .int64 (some 0), 0⟩ =
      .ok ⟨"AVG(id)", .float64, false⟩
    ∧ DataType.int64 ≠ DataType.float64
    ∧ (LogicalExpr.aggregateFuncExpr .MIN (.column "score")).toField idScoreScan =
      .ok ⟨"Min(score)", .float64, true⟩
    ∧ Min.toField idScoreTable.schema ⟨.float64 (some 0), 1⟩ =
      .ok ⟨"MIN(score)", .float64, false⟩
    ∧ "Min(score)" ≠ "MIN(score)"
    ∧ (LogicalExpr.aggregateFuncExpr .MAX (.column "score")).toField idScoreScan =
      .ok ⟨"Max(score)", .float64, true⟩
    ∧ "Max(score)" ≠ "MAX(score)"
    ∧ (LogicalExpr.aggregateFuncExpr .SUM (.column "score")).toField idScoreScan =
      .ok ⟨"SUM(score)", .float64, true⟩ := by
  refine ⟨by decide, by decide, by decide, by decide, by decide, by decide,
    by decide, by decide, by decide, by decide, by decide, by decide⟩

/-! ## C5 — logical binary field derivation -/

/-- The schema `[score : Float64, id : Int64]` as a scan plan and as an
empty batch (for the physical derivation). -/
def scoreIdSchema : Schema := ⟨[⟨"score", .float64, false⟩, ⟨"id", .int64, false⟩]⟩

def scoreIdScan : LogicalPlan := .scan ⟨scoreIdSchema, []⟩ none

def scoreIdBatch : Batch := ⟨scoreIdSchema, [.float64Col [], .int64Col []]⟩

/-- Claim C5 (code bug): the logical `BinaryExpr::to_field` is supposed to
name the field `"{left} {op} {right}"` and to give arithmetic results the
left operand's type.  The source formats `"{left} {right} {op}"` — operator
last — and returns `DataType::Boolean` unconditionally, arithmetic
included; the *physical* `BinaryExpr::to_field` on the same operands
produces the claimed name and type. -/
theorem c5_logical_binary_field_derivation_diverges :
    (LogicalExpr.binaryExpr (.column "score") .Add (.column "id")).toField scoreIdScan =
      .ok ⟨"score id +", .boolean, true⟩
    ∧ (PhysicalExpr.binaryExpr (.columnExpr 0) .Add (.columnExpr 1)).toField scoreIdBatch =
      .ok ⟨"score + id", .float64, true⟩
    ∧ "score id +" ≠ "score + id"
    ∧ DataType.boolean ≠ DataType.float64
    ∧ (LogicalExpr.binaryExpr (.column "score") .Gt (.column "id")).toField scoreIdScan =
      .ok ⟨"score id >", .boolean, true⟩
    ∧ (PhysicalExpr.binaryExpr (.columnExpr 0) .Gt (.columnExpr 1)).toField scoreIdBatch =
      .ok ⟨"score > id", .boolean, true⟩
    ∧ "score id >" ≠ "score > id" := by
  refine ⟨by decide, by decide, by decide, by decide, by decide, by decide,
    by decide⟩

/-! ## C6 — selection predicate semantics -/

/-- The recursive builder agrees with the positionwise description: zip the
predicate with the column, keep the value under a true predicate, skip it
under false, emit a null under a null predicate. -/
lemma buildArrayByPredicate_eq_filterMap {α : Type} :
    ∀ (pred : List (Option Bool)) (col : List (Option α)),
      buildArrayByPredicate pred col =
        (pred.zip col).filterMap (fun pc =>
          match pc.1 with
          | some true => some pc.2
          | some false => none
          | none => some none)
  | [], col => by simp [buildArrayByPredicate]
  | p :: ps, [] => by simp [buildArrayByPredicate]
  | some true :: ps, v :: vs => by
    simp [buildArrayByPredicate, buildArrayByPredicate_eq_filterMap ps vs]
  | some false :: ps, v :: vs => by
    simp [buildArrayByPredicate, buildArrayByPredicate_eq_filterMap ps vs]
  | none :: ps, v :: vs => by
    simp [buildArrayByPredicate, buildArrayByPredicate_eq_filterMap ps vs]

/-- An everywhere-true predicate of the column's length reproduces the
column. -/
lemma buildArrayByPredicate_all_true {α : Type} :
    ∀ (pred : List (Option Bool)) (col : List (Option α)),
      pred.length = col.length → (∀ p ∈ pred, p = some true) →
      buildArrayByPredicate pred col = col
  | [], [], _, _ => by simp [buildArrayByPredicate]
  | p :: ps, v :: vs, h, hall => by
    have hp : p = some true := hall p (by simp)
    subst hp
    simp only [buildArrayByPredicate]
    exact congrArg (v :: ·)
      (buildArrayByPredicate_all_true ps vs (by simpa using h)
        (fun q hq => hall q (by simp [hq])))

/-- An everywhere-false predicate yields the empty column. -/
lemma buildArrayByPredicate_all_false {α : Type} :
    ∀ (pred : List (Option Bool)) (col : List (Option α)),
      (∀ p ∈ pred, p = some false) →
      buildArrayByPredicate pred col = []
  | [], _, _ => by cases ‹List (Option α)› <;> simp [buildArrayByPredicate]
  | p :: ps, [], _ => by simp [buildArrayByPredicate]
  | p :: ps, v :: vs, hall => by
    have hp : p = some false := hall p (by simp)
    subst hp
    simp only [buildArrayByPredicate]
    exact buildArrayByPredicate_all_false ps vs (fun q hq => hall q (by simp [hq]))

/-- Claim C6: for a predicate of the input's row count,
`build_array_by_predicate` emits, in input order, exactly the entries at
true-predicate positions, plus a null at each null-predicate position, and
nothing from false-predicate positions; in particular an everywhere-true
predicate reproduces the column and an everywhere-false predicate yields
the empty column.  `Selection::execute` applies this builder to every
column of the batch. -/
theorem c6_selection_filters_by_predicate {α : Type} (pred : List (Option Bool))
    (col : List (Option α)) (h : pred.length = col.length) :
    buildArrayByPredicate pred col =
      (pred.zip col).filterMap (fun pc =>
        match pc.1 with
        | some true => some pc.2
        | some false => none
        | none => some none)
    ∧ ((∀ p ∈ pred, p = some true) → buildArrayByPredicate pred col = col)
    ∧ ((∀ p ∈ pred, p = some false) → buildArrayByPredicate pred col = []) :=
  ⟨buildArrayByPredicate_eq_filterMap pred col,
   fun hall => buildArrayByPredicate_all_true pred col h hall,
   fun hall => buildArrayByPredicate_all_false pred col hall⟩

/-- Witness for C6 at a concrete predicate and column: the row with a true
predicate survives with its value, the null-predicate row becomes null, the
false-predicate row is dropped. -/
theorem c6_selection_filters_by_predicate_witness :
    buildArrayByPredicate [some true, none, some false]
      [some (1 : Int), some 2, none] = [some 1, none] := by
  have h := c6_selection_filters_by_predicate
    [some true, none, some false] [some (1 : Int), some 2, none] (by decide)
  rw [h.1]
  decide

/-! ## C8 — binary expression operand type mismatch -/

/-- Claim C8: whenever the two operands of a physical binary expression
evaluate successfully to columns of *different* data types, `evaluate`
returns the `IntervalError` carrying the operator and both types
(`mismatchMsg`), and no column is produced. -/
theorem c8_binary_mismatched_types_interval_error (l r : PhysicalExpr)
    (op : Operator) (b : Batch) (lv rv : ColumnArray)
    (hl : l.evaluate b = .ok lv) (hr : r.evaluate b = .ok rv)
    (hne : lv.dataType ≠ rv.dataType) :
    (PhysicalExpr.binaryExpr l op r).evaluate b =
      .error (.err (.IntervalError (mismatchMsg op lv.dataType rv.dataType))) := by
  simp only [PhysicalExpr.evaluate, hl, hr, bind, Except.bind]
  rw [if_pos hne]

/-- A one-row `Int64` batch for the C8 witness. -/
def c8Batch : Batch := ⟨⟨[⟨"n", .int64, false⟩]⟩, [.int64Col [some 3]]⟩

/-- Witness for C8: adding an `Int64` column to a `Float64` literal is the
`IntervalError` naming `Add`, `Int64` and `Float64`. -/
theorem c8_binary_mismatched_types_interval_error_witness :
    (PhysicalExpr.binaryExpr (.columnExpr 0) .Add
        (.literalExpr (.float64 (some 1)))).evaluate c8Batch =
      .error (.err (.IntervalError (mismatchMsg .Add .int64 .float64))) :=
  c8_binary_mismatched_types_interval_error (.columnExpr 0)
    (.literalExpr (.float64 (some 1))) .Add c8Batch
    (.array (.int64Col [some 3])) (.literal (.float64 (some 1)) 1)
    (by decide) (by decide) (by decide)

/-! ## C10 — catalog re-registration -/

/-- After a `HashMap::insert`, lookup of the inserted key finds the new
value (the previous binding is replaced). -/
lemma hashMapGet_insert (m : List (String × Table)) (k : String) (v : Table) :
    hashMapGet (hashMapInsert m k v) k = some v := by
  induction m with
  | nil => simp [hashMapInsert, hashMapGet]
  | cons p rest ih =>
    by_cases h : p.1 = k
    · simp [hashMapInsert, h, hashMapGet]
    · simp [hashMapInsert, h, hashMapGet, List.find?] at ih ⊢
      simpa [h] using ih

/-- Claim C10: `add_csv_table` with an already-registered name (and a
loadable file) returns `Ok` and silently replaces the previous table:
subsequent `get_table_by_name` and `get_table_df` for that name resolve to
the newly loaded table. -/
theorem c10_add_csv_table_replaces_registration
    (load : String → Except Error Table) (cat : Catalog)
    (tableName csvFile : String) (t told : Table)
    (hload : load csvFile = .ok t)
    (_hreg : hashMapGet cat tableName = some told) :
    Catalog.addCsvTable load cat tableName csvFile =
      .ok (hashMapInsert cat tableName t)
    ∧ Catalog.getTableByName (hashMapInsert cat tableName t) tableName = .ok t
    ∧ Catalog.getTableDf (hashMapInsert cat tableName t) tableName =
      .ok ⟨.scan t none⟩ := by
  refine ⟨?_, ?_, ?_⟩
  · simp [Catalog.addCsvTable, hload]
  · simp [Catalog.getTableByName, hashMapGet_insert]
  · simp [Catalog.getTableDf, hashMapGet_insert]

/-- Witness for C10: re-registering the name `t` over a catalog that maps
it to the `[a]`-schema table resolves to the newly loaded `[b]`-schema
table afterwards. -/
theorem c10_add_csv_table_replaces_registration_witness :
    Catalog.getTableByName (hashMapInsert [("t", (⟨schemaA, []⟩ : Table))] "t"
      (⟨schemaB, []⟩ : Table)) "t" = .ok (⟨schemaB, []⟩ : Table) :=
  (c10_add_csv_table_replaces_registration
    (fun _ => .ok (⟨schemaB, []⟩ : Table)) [("t", (⟨schemaA, []⟩ : Table))]
    "t" "table.csv" (⟨schemaB, []⟩ : Table) (⟨schemaA, []⟩ : Table)
    rfl (by decide)).2.1

/-! ## C2 — nested-loop join output positions -/

/-- Left side of the two-key-pair join: rows `(1, 2)` and `(9, 9)`. -/
def c2Outer : Batch := ⟨⟨[⟨"la", .int64, false⟩, ⟨"lb", .int64, false⟩]⟩,
  [.int64Col [some 1, some 9], .int64Col [some 2, some 9]]⟩

/-- Right side of the two-key-pair join: rows `(1, 7)` and `(5, 2)`. -/
def c2Inner : Batch := ⟨⟨[⟨"ra", .int64, false⟩, ⟨"rb", .int64, false⟩]⟩,
  [.int64Col [some 1, some 5], .int64Col [some 7, some 2]]⟩

def c2Schema : Schema := Schema.join c2Outer.schema c2Inner.schema

/-- Counterexample to claim C2 as stated: with key pairs `(0,0)` and
`(1,1)`, the first pair matches right row 0 only and the second pair
matches right row 1 only, so the right match-vectors are
`[[true,false],[false,true]]`.  "True in at least one vector" selects
right positions `[0, 1]`, but the code keeps a position only when the
*last* pair's vector is true there, emitting `[1]`: the output's right
columns hold row 1 alone. -/
theorem c2_right_positions_not_any_counterexample :
    collectJoinFlags c2Outer c2Inner [(0, 0), (1, 1)] =
      .ok ([[true, false], [true, false]], [[true, false], [false, true]])
    ∧ innerPositions [[true, false], [false, true]] 2 = [1]
    ∧ (List.range 2).filter
        (fun pos => [[true, false], [false, true]].any
          (fun rf => rf.getD pos false)) = [0, 1]
    ∧ ([1] : List Nat) ≠ [0, 1]
    ∧ nestedLoopJoinExecute c2Outer c2Inner [(0, 0), (1, 1)] c2Schema =
      .ok ⟨c2Schema, [.int64Col [some 1], .int64Col [some 2],
        .int64Col [some 5], .int64Col [some 2]]⟩
    ∧ ColumnData.int64Col [some 5] ≠
        ColumnData.take (.int64Col [some 1, some 5]) [0, 1] := by
  refine ⟨by decide, by decide, by decide, by decide, by decide, by decide⟩

/-- An overwriting fold over a non-empty list returns the last element's
value, whatever the initial value. -/
lemma foldl_overwrite_getLastD (pos : Nat) :
    ∀ (a : List Bool) (l : List (List Bool)) (init : Bool),
      (a :: l).foldl (fun _ rf => rf.getD pos false) init =
        ((a :: l).getLastD []).getD pos false
  | a, [], _ => by simp [List.foldl, List.getLastD]
  | a, b :: bs, init => by
    have ih := foldl_overwrite_getLastD pos b bs (a.getD pos false)
    simp only [List.foldl] at ih ⊢
    rw [ih]
    simp [List.getLastD]

/-- A successful `collectJoinFlags` over a non-empty key-pair list yields
non-empty flag lists (one vector per pair). -/
lemma collectJoinFlags_cons_ne_nil {ot it : Batch} {li ri : Nat}
    {rest : List (Nat × Nat)} {lfs rfs : List (List Bool)}
    (h : collectJoinFlags ot it ((li, ri) :: rest) = .ok (lfs, rfs)) :
    lfs ≠ [] ∧ rfs ≠ [] := by
  simp only [collectJoinFlags, PhysicalExpr.evaluate, bind, Except.bind] at h
  repeat' split at h
  all_goals try simp_all
  all_goals obtain ⟨h1, h2⟩ := h
  all_goals subst h1
  all_goals subst h2
  all_goals exact ⟨List.cons_ne_nil _ _, List.cons_ne_nil _ _⟩

/-- Claim C2, amended: in `NestedLoopJoin::execute` with a non-empty key
pair list, the left output positions are exactly the left row positions
whose entry is true in *every* key pair's left match-vector, and the right
output positions are exactly the right row positions whose entry is true in
the **last** key pair's right match-vector (the flag loop overwrites,
last-write-wins); each output column is the `take` of the corresponding
input column at those positions. -/
theorem c2_join_output_positions (outerTable innerTable : Batch)
    (onIdx : List (Nat × Nat)) (schema : Schema)
    (leftFlags rightFlags : List (List Bool)) (b : Batch)
    (hne : onIdx ≠ [])
    (hflags : collectJoinFlags outerTable innerTable onIdx =
      .ok (leftFlags, rightFlags))
    (hexec : nestedLoopJoinExecute outerTable innerTable onIdx schema = .ok b) :
    b.schema = schema ∧
    b.columns =
      outerTable.columns.map (fun c => c.take
        ((List.range (leftFlags.headD []).length).filter
          (fun pos => leftFlags.all (fun lf => lf.getD pos false)))) ++
      innerTable.columns.map (fun c => c.take
        ((List.range (rightFlags.headD []).length).filter
          (fun pos => (rightFlags.getLastD []).getD pos false))) := by
  obtain ⟨p, rest, rfl⟩ : ∃ p rest, onIdx = p :: rest := by
    cases onIdx with
    | nil => exact absurd rfl hne
    | cons p rest => exact ⟨p, rest, rfl⟩
  obtain ⟨li, ri⟩ := p
  obtain ⟨-, hrne⟩ := collectJoinFlags_cons_ne_nil hflags
  obtain ⟨rf0, rfrest, rfl⟩ : ∃ rf0 rfrest, rightFlags = rf0 :: rfrest := by
    cases rightFlags with
    | nil => exact absurd rfl hrne
    | cons rf0 rfrest => exact ⟨rf0, rfrest, rfl⟩
  simp only [nestedLoopJoinExecute, List.isEmpty_cons, Bool.false_eq_true,
    if_false, bind, Except.bind, hflags] at hexec
  have hb : b = ⟨schema,
      outerTable.columns.map (fun c => c.take
        (outerPositions leftFlags (leftFlags.headD []).length)) ++
      innerTable.columns.map (fun c => c.take
        (innerPositions (rf0 :: rfrest) ((rf0 :: rfrest).headD []).length))⟩ := by
    exact (Except.ok.inj hexec).symm
  subst hb
  refine ⟨rfl, ?_⟩
  have hL : joinLeftFlag leftFlags =
      fun pos => leftFlags.all (fun lf => lf.getD pos false) := rfl
  have hR : joinRightFlag (rf0 :: rfrest) =
      fun pos => ((rf0 :: rfrest).getLastD []).getD pos false :=
    funext fun pos => foldl_overwrite_getLastD pos rf0 rfrest false
  simp only [outerPositions, innerPositions, hL, hR]

/-- Witness for the amended C2 at the concrete two-key-pair join: the
output columns are the takes of the inputs at the all-true left positions
and at the positions true in the last right match-vector. -/
theorem c2_join_output_positions_witness :
    (Batch.mk c2Schema [.int64Col [some 1], .int64Col [some 2],
        .int64Col [some 5], .int64Col [some 2]]).columns =
      c2Outer.columns.map (fun c => c.take
        ((List.range (([[true, false], [true, false]] :
            List (List Bool)).headD []).length).filter
          (fun pos => ([[true, false], [true, false]] :
            List (List Bool)).all (fun lf => lf.getD pos false)))) ++
      c2Inner.columns.map (fun c => c.take
        ((List.range (([[true, false], [false, true]] :
            List (List Bool)).headD []).length).filter
          (fun pos => (([[true, false], [false, true]] :
            List (List Bool)).getLastD []).getD pos false))) :=
  (c2_join_output_positions c2Outer c2Inner [(0, 0), (1, 1)] c2Schema
    [[true, false], [true, false]] [[true, false], [false, true]]
    ⟨c2Schema, [.int64Col [some 1], .int64Col [some 2],
      .int64Col [some 5], .int64Col [some 2]]⟩
    (by decide) (by decide) (by decide)).2

/-! ## C7 — schema preservation through planning -/

/-- The cached output schema `[id, COUNT(score)]` of the fixture aggregate
plan (as `DataFrame::aggregate` computes it from the logical
derivation). -/
def c7AggSchema : Schema := ⟨[⟨"id", .int64, false⟩, ⟨"COUNT(score)", .int64, true⟩]⟩

/-- A logical aggregation: group `idScoreScan` by `id`, count `score`. -/
def c7AggPlan : LogicalPlan :=
  .aggregation idScoreScan (.column "id") [(.COUNT, .column "score")] c7AggSchema

/-- What the planner builds for `c7AggPlan`: the three arguments of the
`Aggregation::new` call — input, group expression, operators — and no
schema. -/
def c7AggPhys : PhysicalPlan :=
  .aggregation (.scan idScoreTable none) (some (.columnExpr 0)) [.count ⟨0, 1⟩]

/-- Claim C7 (code bug): planning is supposed to preserve the cached schema
for Projection, Aggregate and Join.  It does for Projection and Join — the
planner threads the logical node's cached schema into the physical node,
whose `schema()` returns it.  For Aggregate it cannot: the planner calls
`Aggregation::new(input, Some(group_expr), aggr_expr)` with three
arguments, while the constructor in `physical_plan/aggr/mod.rs` takes a
fourth, mandatory `schema` (the call does not type-check, E0061), so the
physical aggregation is handed no schema and the round-trip fails on the
fixture aggregate plan. -/
theorem c7_planning_schema_roundtrip :
    (∀ (input : LogicalPlan) (exprs : List LogicalExpr) (schema : Schema)
        (phys : PhysicalPlan),
      createPhysicalPlan (.projection input exprs schema) = .ok phys →
      phys.schemaOpt = some ((LogicalPlan.projection input exprs schema).schema))
    ∧ (∀ (left : LogicalPlan) (onPairs : List (String × String))
        (right : LogicalPlan) (jt : JoinType) (schema : Schema)
        (phys : PhysicalPlan),
      createPhysicalPlan (.join left onPairs right jt schema) = .ok phys →
      phys.schemaOpt = some ((LogicalPlan.join left onPairs right jt schema).schema))
    ∧ (createPhysicalPlan c7AggPlan = .ok c7AggPhys
       ∧ c7AggPhys.schemaOpt = none
       ∧ c7AggPlan.schema = c7AggSchema) := by
  refine ⟨?_, ?_, by decide, by decide, by decide⟩
  · intro input exprs schema phys h
    simp only [createPhysicalPlan, bind, Except.bind] at h
    repeat' split at h
    all_goals first
      | exact Except.noConfusion h
      | (obtain rfl := Except.ok.inj h
         simp [PhysicalPlan.schemaOpt, LogicalPlan.schema])
  · intro left onPairs right jt schema phys h
    simp only [createPhysicalPlan, bind, Except.bind] at h
    repeat' split at h
    all_goals first
      | exact Except.noConfusion h
      | (obtain rfl := Except.ok.inj h
         simp [PhysicalPlan.schemaOpt, LogicalPlan.schema])

/-- Witness for C7's Projection part: planning an empty projection over the
`idScore` scan yields a physical plan whose schema is the cached one. -/
theorem c7_planning_schema_roundtrip_witness :
    PhysicalPlan.schemaOpt (.projection (.scan idScoreTable none) scoreIdSchema []) =
      some ((LogicalPlan.projection idScoreScan [] scoreIdSchema).schema) :=
  c7_planning_schema_roundtrip.1 idScoreScan [] scoreIdSchema
    (.projection (.scan idScoreTable none) scoreIdSchema []) (by decide)

/-! ## C9 — join key type discipline -/

/-- A one-row, one-`Int64`-column batch. -/
def c9IntBatch : Batch := ⟨⟨[⟨"a", .int64, false⟩]⟩, [.int64Col [some 1]]⟩

/-- A one-row, one-`Utf8`-column batch. -/
def c9Utf8Batch : Batch := ⟨⟨[⟨"s", .utf8, false⟩]⟩, [.utf8Col [some "x"]]⟩

/-- When every key pair denotes an `Int64` column on both sides,
`collectJoinFlags` succeeds. -/
lemma collectJoinFlags_ok_of_int64 (ot it : Batch) :
    ∀ (onIdx : List (Nat × Nat)),
      (∀ p ∈ onIdx, ∃ lvs rvs, ot.columns.get? p.1 = some (.int64Col lvs) ∧
        it.columns.get? p.2 = some (.int64Col rvs)) →
      ∃ flags, collectJoinFlags ot it onIdx = .ok flags
  | [], _ => ⟨([], []), rfl⟩
  | (li, ri) :: rest, h => by
    obtain ⟨lvs, rvs, hl, hr⟩ := h (li, ri) (by simp)
    obtain ⟨flags, hrest⟩ := collectJoinFlags_ok_of_int64 ot it rest
      (fun p hp => h p (by simp [hp]))
    refine ⟨((markMatches lvs rvs).1 :: flags.1,
      (markMatches lvs rvs).2 :: flags.2), ?_⟩
    simp only [collectJoinFlags, PhysicalExpr.evaluate, bind, Except.bind]
    rw [show ot.columns.get? (li, ri).1 = ot.columns.get? li from rfl] at hl
    rw [show it.columns.get? (li, ri).2 = it.columns.get? ri from rfl] at hr
    rw [hl, hr]
    simp [ColumnArray.toArray, ColumnData.dataType, hrest, bind, Except.bind]

/-- The only `PhysicalPlanError` that `collectJoinFlags` can produce is the
key-type mismatch; every other failure is a panic. -/
lemma collectJoinFlags_physicalPlanError_msg (ot it : Batch)
    (onIdx : List (Nat × Nat)) :
    ∀ (m : String),
      collectJoinFlags ot it onIdx = .error (.err (.PhysicalPlanError m)) →
      m = "Left and right types of on should match" := by
  induction onIdx with
  | nil => intro m h; simp [collectJoinFlags] at h
  | cons p rest ih =>
    obtain ⟨li, ri⟩ := p
    intro m h
    simp only [collectJoinFlags, PhysicalExpr.evaluate, bind, Except.bind] at h
    cases hl : ot.columns.get? li with
    | none => rw [hl] at h; simp at h
    | some lc =>
      rw [hl] at h
      cases hr : it.columns.get? ri with
      | none => rw [hr] at h; simp at h
      | some rc =>
        rw [hr] at h
        simp only [ColumnArray.toArray] at h
        split at h
        all_goals try (simp only [Except.error.injEq, RunError.err.injEq,
          Error.PhysicalPlanError.injEq] at h; exact h.symm)
        split at h
        · cases hrec : collectJoinFlags ot it rest with
          | ok v => rw [hrec] at h; simp at h
          | error e =>
            rw [hrec] at h
            simp only [Except.error.injEq] at h
            exact ih m (by rw [hrec, h])
        · simp at h

/-- Claim C9: `NestedLoopJoin::execute` rejects with `PhysicalPlanError`
only the empty key list and a key pair whose column types differ; when
every key column is `Int64` on both sides it succeeds, and when a pair's
columns have equal but non-`Int64` types (both `Utf8` here) the
unconditional `Int64` downcast panics instead of returning an error. -/
theorem c9_join_requires_int64_keys :
    (∀ (ot it : Batch) (schema : Schema),
      nestedLoopJoinExecute ot it [] schema =
        .error (.err (.PhysicalPlanError
          "`on` cannot be empty when executing nested loop join")))
    ∧ (∀ (ot it : Batch) (onIdx : List (Nat × Nat)) (schema : Schema),
        onIdx ≠ [] →
        (∀ p ∈ onIdx, ∃ lvs rvs, ot.columns.get? p.1 = some (.int64Col lvs) ∧
          it.columns.get? p.2 = some (.int64Col rvs)) →
        ∃ b, nestedLoopJoinExecute ot it onIdx schema = .ok b)
    ∧ (∀ (ot it : Batch) (onIdx : List (Nat × Nat)) (schema : Schema) (m : String),
        nestedLoopJoinExecute ot it onIdx schema =
          .error (.err (.PhysicalPlanError m)) →
        m = "`on` cannot be empty when executing nested loop join" ∨
        m = "Left and right types of on should match")
    ∧ nestedLoopJoinExecute c9Utf8Batch c9Utf8Batch [(0, 0)]
        (Schema.join c9Utf8Batch.schema c9Utf8Batch.schema) = .error .panic
    ∧ nestedLoopJoinExecute c9IntBatch c9Utf8Batch [(0, 0)]
        (Schema.join c9IntBatch.schema c9Utf8Batch.schema) =
      .error (.err (.PhysicalPlanError "Left and right types of on should match")) := by
  refine ⟨?_, ?_, ?_, by decide, by decide⟩
  · intro ot it schema
    simp [nestedLoopJoinExecute]
  · intro ot it onIdx schema hne hall
    obtain ⟨q, rest, rfl⟩ : ∃ q rest, onIdx = q :: rest := by
      cases onIdx with
      | nil => exact absurd rfl hne
      | cons q rest => exact ⟨q, rest, rfl⟩
    obtain ⟨⟨lfs, rfs⟩, hflags⟩ := collectJoinFlags_ok_of_int64 ot it (q :: rest) hall
    refine ⟨⟨schema,
      ot.columns.map (fun c => c.take (outerPositions lfs (lfs.headD []).length)) ++
      it.columns.map (fun c => c.take (innerPositions rfs (rfs.headD []).length))⟩, ?_⟩
    simp [nestedLoopJoinExecute, hflags, bind, Except.bind, List.isEmpty_cons]
  · intro ot it onIdx schema m h
    cases onIdx with
    | nil =>
      simp only [nestedLoopJoinExecute, List.isEmpty_nil, if_true] at h
      left
      exact (Error.PhysicalPlanError.inj (RunError.err.inj
        (Except.error.inj h))).symm
    | cons q rest =>
      right
      simp only [nestedLoopJoinExecute, List.isEmpty_cons, Bool.false_eq_true,
        if_false, bind, Except.bind] at h
      cases hc : collectJoinFlags ot it (q :: rest) with
      | ok v => rw [hc] at h; simp at h
      | error e =>
        rw [hc] at h
        simp only [Except.error.injEq] at h
        subst h
        exact collectJoinFlags_physicalPlanError_msg ot it (q :: rest) m hc

/-- Witness for C9's totality part: an `Int64`-keyed self-join of the
one-row batch executes successfully. -/
theorem c9_join_requires_int64_keys_witness :
    ∃ b, nestedLoopJoinExecute c9IntBatch c9IntBatch [(0, 0)]
      (Schema.join c9IntBatch.schema c9IntBatch.schema) = .ok b :=
  c9_join_requires_int64_keys.2.1 c9IntBatch c9IntBatch [(0, 0)]
    (Schema.join c9IntBatch.schema c9IntBatch.schema) (by decide)
    (by
      intro p hp
      simp only [List.mem_singleton] at hp
      subst hp
      exact ⟨[some 1], [some 1], rfl, rfl⟩)

end RsQueryEngine
